import Mathlib

/-!
Verification development for the Letwrk task-agent core
(task store, roster matcher, command parsers, meeting-breakdown
extractor, and the tool executors built on them).

The Python source is embedded shallowly:

* pure string-processing functions become Lean functions on `String` /
  `List Char`;
* the regular expressions used by the parsers are transcribed atom by
  atom into a small, explicit backtracking pattern engine (`Atom`,
  `mAtoms`, `reSearch`, `reSubAll`, `reSplit`) whose semantics follow
  Python's `re` module (leftmost match, lazy `.*?` that does not cross
  newlines, greedy classes with give-back, ordered alternation,
  case-insensitive literals for patterns compiled with `re.IGNORECASE`);
* the mutable task store becomes a state value (`TaskManager`) passed
  and returned explicitly; the module-level suggestion buffer becomes an
  explicit `List SuggestedItem` argument and result;
* `rapidfuzz.fuzz.ratio` (normalized indel similarity) is modelled over
  `ℚ`: `ratio(a,b) = 200 * lcs(a,b) / (|a| + |b|)`, and
  `process.extractOne` as a fold keeping the first best-scoring entry;
* readings of the wall clock (`datetime.now()`) are threaded in as
  explicit string parameters (`now`, `dd7`).
-/

namespace Indexity

/-! ## Character and string helpers (Python semantics) -/

/-- Python `\w`: `[a-zA-Z0-9_]`. -/
def isWordChar (c : Char) : Bool := c.isAlphanum || c = '_'

/-- Python `\s` (ASCII part): space, tab, newline, carriage return,
vertical tab, form feed. -/
def isPyWs (c : Char) : Bool := c.isWhitespace || c = '\x0b' || c = '\x0c'

/-- Case-insensitive character comparison, for `re.IGNORECASE`. -/
def lcEq (a b : Char) : Bool := a.toLower = b.toLower

/-- Python `str.lower()`. -/
def pyLower (s : String) : String := ⟨s.data.map Char.toLower⟩

def stripCharsL (l : List Char) : List Char :=
  ((l.dropWhile isPyWs).reverse.dropWhile isPyWs).reverse

/-- Python `str.strip()`. -/
def pyStrip (s : String) : String := ⟨stripCharsL s.data⟩

/-- Python `s[:n]` on character counts. -/
def pyTake (n : Nat) (s : String) : String := ⟨s.data.take n⟩

/-- Python `str.split(sep)` for a one-character separator, on
character lists (`"".split(c) == ['']`, separators at the edges
produce empty pieces). -/
def splitOnCharL (sep : Char) : List Char → List (List Char)
  | [] => [[]]
  | c :: rest =>
    let r := splitOnCharL sep rest
    if c = sep then [] :: r
    else
      match r with
      | h :: t => (c :: h) :: t
      | [] => [[c]]

/-- Python `str.split(sep)` for a one-character separator. -/
def pySplit (sep : Char) (s : String) : List String :=
  (splitOnCharL sep s.data).map (fun l => ⟨l⟩)

/-! ## A tiny pattern engine mirroring the source's regexes

Each Python regex used by the repository is transcribed into a
`List Atom`.  The engine implements exactly the features those regexes
use: case-insensitive literals, single-character classes, greedy
character-class runs (with give-back on failure), the lazy gap `.*?`
(which does not match `'\n'`), word boundaries `\b`, optional groups
`(?:...)?` (greedy), alternation of sub-patterns, and alternation of
plain literals `(a|b|c)`.  Matching is backtracking, leftmost-first,
like Python `re`. -/

inductive Atom where
  | lit (s : String)
  | chr (p : Char → Bool)
  | cls (p : Char → Bool) (one : Bool) (cap : Bool)
  | gap
  | wb
  | opt (sub : List Atom)
  | alt (branches : List (List Atom))
  | alts (ss : List String) (cap : Bool)

/-- Match result: remaining input, last consumed character (for `\b`),
and the captured groups in order. -/
abbrev MRes := Option (List Char × Option Char × List (List Char))

def isWordOpt : Option Char → Bool
  | none => false
  | some c => isWordChar c

/-- Consume a case-insensitive literal, returning the new previous
character and the remaining input. -/
def litConsume : List Char → Option Char → List Char → Option (Option Char × List Char)
  | [], prev, cs => some (prev, cs)
  | _ :: _, _, [] => none
  | l :: ls, _, c :: cs => if lcEq l c then litConsume ls (some c) cs else none

mutual

/-- The matcher.  `fuel` strictly decreases at every recursive call; the
wrappers below always supply more fuel than the maximal backtracking
depth (bounded by `(input length + 2) * pattern size`), so running out
of fuel never occurs on the patterns of this development. -/
def mAtoms : Nat → Option Char → List Char → List Atom → MRes
  | 0, _, _, _ => none
  | _ + 1, prev, cs, [] => some (cs, prev, [])
  | f + 1, prev, cs, Atom.lit s :: rest =>
    match litConsume s.data prev cs with
    | none => none
    | some (pv, cs') => mAtoms f pv cs' rest
  | f + 1, _, cs, Atom.chr p :: rest =>
    match cs with
    | [] => none
    | c :: cs' => if p c then mAtoms f (some c) cs' rest else none
  | f + 1, prev, cs, Atom.cls p one cap :: rest =>
    let run := cs.takeWhile p
    if one && run.isEmpty then none
    else clsGiveback f one cap prev run.reverse (cs.drop run.length) rest
  | f + 1, prev, cs, Atom.gap :: rest =>
    (match mAtoms f prev cs rest with
     | some r => some r
     | none =>
       match cs with
       | [] => none
       | c :: cs' => if c = '\n' then none else mAtoms f (some c) cs' (Atom.gap :: rest))
  | f + 1, prev, cs, Atom.wb :: rest =>
    if isWordOpt prev ≠ isWordOpt cs.head? then mAtoms f prev cs rest else none
  | f + 1, prev, cs, Atom.opt sub :: rest =>
    (match mAtoms f prev cs (sub ++ rest) with
     | some r => some r
     | none => mAtoms f prev cs rest)
  | f + 1, prev, cs, Atom.alt branches :: rest => altTry f prev cs branches rest
  | f + 1, prev, cs, Atom.alts ss cap :: rest => altsTry f prev cs ss cap rest

/-- Greedy class run with give-back: try the maximal run first, then
shorter ones (down to one character when `one`). -/
def clsGiveback : Nat → Bool → Bool → Option Char → List Char → List Char → List Atom → MRes
  | 0, _, _, _, _, _, _ => none
  | f + 1, one, cap, prev, takenRev, cs, rest =>
    (match mAtoms f (match takenRev with | [] => prev | c :: _ => some c) cs rest with
     | some (r, pv, caps) => some (r, pv, if cap then takenRev.reverse :: caps else caps)
     | none =>
       match takenRev with
       | [] => none
       | c :: tr =>
         if one && tr.isEmpty then none
         else clsGiveback f one cap prev tr (c :: cs) rest)

/-- Ordered alternation of sub-patterns. -/
def altTry : Nat → Option Char → List Char → List (List Atom) → List Atom → MRes
  | 0, _, _, _, _ => none
  | _ + 1, _, _, [], _ => none
  | f + 1, prev, cs, b :: bs, rest =>
    (match mAtoms f prev cs (b ++ rest) with
     | some r => some r
     | none => altTry f prev cs bs rest)

/-- Ordered alternation of plain literals, optionally capturing the
matched text (original characters). -/
def altsTry : Nat → Option Char → List Char → List String → Bool → List Atom → MRes
  | 0, _, _, _, _, _ => none
  | _ + 1, _, _, [], _, _ => none
  | f + 1, prev, cs, s :: ss, cap, rest =>
    (match litConsume s.data prev cs with
     | some (pv, cs') =>
       (match mAtoms f pv cs' rest with
        | some (r, pv2, caps) => some (r, pv2, if cap then cs.take s.data.length :: caps else caps)
        | none => altsTry f prev cs ss cap rest)
     | none => altsTry f prev cs ss cap rest)

end

def patFuel (cs : List Char) : Nat := (cs.length + 2) * 64

def mAtomsTop (prev : Option Char) (cs : List Char) (p : List Atom) : MRes :=
  mAtoms (patFuel cs) prev cs p

structure SearchHit where
  preRev : List Char
  caps : List (List Char)
  prevEnd : Option Char
  rest : List Char

/-- `re.search`: try the pattern at each position, leftmost first.
`preRev` is the text before the match (reversed), `rest` the text after
it. -/
def reSearchAux (p : List Atom) : Option Char → List Char → List Char → Option SearchHit
  | prev, preRev, [] =>
    (match mAtomsTop prev [] p with
     | some (rest, pv, caps) => some ⟨preRev, caps, pv, rest⟩
     | none => none)
  | prev, preRev, c :: cs' =>
    (match mAtomsTop prev (c :: cs') p with
     | some (rest, pv, caps) => some ⟨preRev, caps, pv, rest⟩
     | none => reSearchAux p (some c) (c :: preRev) cs')

def reSearch (p : List Atom) (s : String) : Option SearchHit :=
  reSearchAux p none [] s.data

/-- `re.search(...) is not None`. -/
def reTest (p : List Atom) (s : String) : Bool := (reSearch p s).isSome

/-- Captured groups of the leftmost match, if any. -/
def reCaps (p : List Atom) (s : String) : Option (List String) :=
  (reSearch p s).map (fun h => h.caps.map (fun l => ⟨l⟩))

/-- `re.sub(pattern, rep, s)` for patterns that cannot match the empty
string: replace every non-overlapping match, scanning left to right. -/
def reSubAllAux (p : List Atom) (rep : List Char) : Nat → Option Char → List Char → List Char
  | 0, _, cs => cs
  | f + 1, prev, cs =>
    match reSearchAux p prev [] cs with
    | none => cs
    | some h => h.preRev.reverse ++ rep ++ reSubAllAux p rep f h.prevEnd h.rest

def reSubAll (p : List Atom) (rep : String) (s : String) : String :=
  ⟨reSubAllAux p rep.data (s.data.length + 1) none s.data⟩

/-- `re.sub('^pattern', '', s)`: a `^`-anchored pattern (without
`re.MULTILINE`) matches at position 0 only. -/
def reSubStart (p : List Atom) (s : String) : String :=
  match mAtomsTop none s.data p with
  | some (rest, _, _) => ⟨rest⟩
  | none => s

/-- `re.split(pattern, s)` for patterns that cannot match the empty
string. -/
def reSplitAux (p : List Atom) : Nat → Option Char → List Char → List (List Char)
  | 0, _, cs => [cs]
  | f + 1, prev, cs =>
    match reSearchAux p prev [] cs with
    | none => [cs]
    | some h => h.preRev.reverse :: reSplitAux p f h.prevEnd h.rest

def reSplit (p : List Atom) (s : String) : List String :=
  (reSplitAux p (s.data.length + 1) none s.data).map (fun l => ⟨l⟩)

/-- `\s+` -/
def ws1 : Atom := Atom.cls isPyWs true false

/-- `\s*` -/
def ws0 : Atom := Atom.cls isPyWs false false

/-! ## Configuration (src/config/settings.py) -/

/-- `TEAM_MEMBERS` -/
def TEAM_MEMBERS : List String :=
  ["Ravi", "Ankita", "Sam", "Alex", "Maya", "Jordan", "Taylor"]

/-- `FUZZY_MATCH_THRESHOLD` -/
def FUZZY_MATCH_THRESHOLD : ℚ := 70

/-- `DEFAULT_PRIORITY` -/
def DEFAULT_PRIORITY : String := "medium"

/-- `DEFAULT_STATUS` -/
def DEFAULT_STATUS : String := "pending"

/-- `KEYWORD_TASKS`: each Python regex key is a `|`-alternation of plain
literals, kept here as the list of its alternatives, in order. -/
def KEYWORD_TASKS : List (List String × String) :=
  [ (["demo", "demonstration"], "Prepare demo presentation"),
    (["integration", "connect"], "Set up integrations"),
    (["dashboard", "overview"], "Design dashboard overview"),
    (["problem", "solution"], "Document problem and solution"),
    (["walkthrough", "tutorial"], "Create walkthrough guide"),
    (["documentation", "docs"], "Update documentation"),
    (["testing", "test"], "Conduct testing"),
    (["meeting", "presentation"], "Schedule follow-up meeting") ]

/-! ## Roster matcher (src/utils/fuzzy_matcher.py)

`rapidfuzz.fuzz.ratio` is the normalized indel similarity on a 0..100
scale: `100 * (1 - dist/(|a|+|b|))` where `dist = |a|+|b| - 2*lcs(a,b)`
is the insertion/deletion edit distance, i.e. `200*lcs/(|a|+|b|)`;
for two empty strings it is 100.  `process.extractOne(q, choices,
scorer=fuzz.ratio)` (no processor, no score cutoff) returns the
choice with the highest score, the first one on ties. -/

/-- Length of a longest common subsequence, with explicit structural
fuel (every recursive call shrinks the summed length by at least one,
so `|a| + |b|` fuel is exact). -/
def lcsLenF : Nat → List Char → List Char → Nat
  | 0, _, _ => 0
  | _ + 1, [], _ => 0
  | _ + 1, _ :: _, [] => 0
  | f + 1, a :: as, b :: bs =>
    if a = b then 1 + lcsLenF f as bs
    else max (lcsLenF f (a :: as) bs) (lcsLenF f as (b :: bs))

/-- Length of a longest common subsequence. -/
def lcsLen (a b : List Char) : Nat := lcsLenF (a.length + b.length) a b

/-- `fuzz.ratio` (case-sensitive, no processor), as a rational:
`200 * lcs / (|a| + |b|)`, built with `mkRat` (which is exactly the
division `(200 * lcs : ℚ) / (|a| + |b|)`, in normalized form). -/
def fuzz_ratio_score (a b : String) : ℚ :=
  let la := a.data.length
  let lb := b.data.length
  if la + lb = 0 then 100
  else mkRat (200 * (lcsLen a.data b.data : Int)) (la + lb)

/-- Scan of `process.extractOne`: keep the current best, replace only on
a strictly higher score (ties keep the earlier choice). -/
def extractOneLoop (query : String) (best : String × ℚ) : List String → String × ℚ
  | [] => best
  | c :: cs =>
    let s := fuzz_ratio_score query c
    if best.2 < s then extractOneLoop query (c, s) cs else extractOneLoop query best cs

/-- `process.extractOne(query, choices, scorer=fuzz.ratio)` restricted
to the pieces the source uses: the best choice and its score (`None`
only for an empty choice list). -/
def extractOne (query : String) : List String → Option (String × ℚ)
  | [] => none
  | c :: cs => some (extractOneLoop query (c, fuzz_ratio_score query c) cs)

/-- `fuzzy_match_name(input_name, threshold)`. -/
def fuzzy_match_name (input_name : String) (threshold : ℚ := FUZZY_MATCH_THRESHOLD) :
    Option String × ℚ :=
  if input_name = "" then (none, 0)
  else if input_name ∈ TEAM_MEMBERS then (some input_name, 100)
  else
    match extractOne input_name TEAM_MEMBERS with
    | some (best, score) => if score ≥ threshold then (some best, score) else (none, 0)
    | none => (none, 0)

/-! ## Task model and store (src/models/task.py) -/

/-- The `Task` dataclass. -/
structure Task where
  id : Nat
  title : String
  assignee : String
  status : String
  priority : String
  created_at : String
  due_date : String
  description : Option String := none
deriving DecidableEq

/-- `Task.create_new`: `now` models `datetime.now().strftime("%Y-%m-%d")`
and `dd7` models `(datetime.now() + timedelta(days=DEFAULT_DUE_DAYS))`
formatted the same way — both are readings of the wall clock, threaded
in explicitly. -/
def Task.create_new (title : String) (assignee : String := "unassigned")
    (priority : String := DEFAULT_PRIORITY) (due_date : Option String := none)
    (now dd7 : String := "") : Task :=
  { id := 0
    title := title
    assignee := assignee
    status := DEFAULT_STATUS
    priority := priority
    created_at := now
    due_date := due_date.getD dd7 }

/-- One `key=value` item of a `**kwargs` field map.  `unknownField`
stands for any key that is not an attribute of `Task` (`hasattr` is
false there, so `update_task`/`bulk_update` skip it). -/
inductive FieldAssign where
  | id (v : Nat)
  | title (v : String)
  | assignee (v : String)
  | status (v : String)
  | priority (v : String)
  | created_at (v : String)
  | due_date (v : String)
  | description (v : Option String)
  | unknownField (key : String)
deriving DecidableEq

/-- `setattr(task, key, value)` guarded by `hasattr(task, key)`. -/
def setField (t : Task) : FieldAssign → Task
  | .id v => { t with id := v }
  | .title v => { t with title := v }
  | .assignee v => { t with assignee := v }
  | .status v => { t with status := v }
  | .priority v => { t with priority := v }
  | .created_at v => { t with created_at := v }
  | .due_date v => { t with due_date := v }
  | .description v => { t with description := v }
  | .unknownField _ => t

/-- Does the map entry assign the `created_at` field? -/
def FieldAssign.isCreatedAt : FieldAssign → Bool
  | .created_at _ => true
  | _ => false

/-- The state of a `TaskManager`. -/
structure TaskManager where
  tasks : List Task
  task_counter : Nat
deriving DecidableEq

/-- The mock data loaded by `TaskManager._initialize_mock_data`; the
counter ends up as the maximal mock id, 3. -/
def initial_task_manager : TaskManager :=
  { tasks :=
      [ { id := 1, title := "Review API documentation", assignee := "Ravi",
          status := "in_progress", priority := "high",
          created_at := "2024-01-15", due_date := "2024-01-20" },
        { id := 2, title := "Update login flow design", assignee := "Ankita",
          status := "pending", priority := "medium",
          created_at := "2024-01-16", due_date := "2024-01-25" },
        { id := 3, title := "Fix database connection issues", assignee := "Sam",
          status := "done", priority := "high",
          created_at := "2024-01-10", due_date := "2024-01-18" } ]
    task_counter := 3 }

/-- `TaskManager.add_task`: bump the counter, stamp the id, append. -/
def add_task (tm : TaskManager) (task : Task) : TaskManager × Task :=
  let t' := { task with id := tm.task_counter + 1 }
  ({ tasks := tm.tasks ++ [t'], task_counter := tm.task_counter + 1 }, t')

/-- `TaskManager.get_task`: first task with the given id. -/
def get_task (tm : TaskManager) (task_id : Nat) : Option Task :=
  tm.tasks.find? (fun t => t.id == task_id)

/-- Apply a `**kwargs` map in order. -/
def applyFields (kwargs : List FieldAssign) (t : Task) : Task :=
  kwargs.foldl setField t

/-- In-place mutation of the first task with the given id. -/
def updateFirstWithId (task_id : Nat) (f : Task → Task) : List Task → List Task
  | [] => []
  | t :: ts => if t.id = task_id then f t :: ts else t :: updateFirstWithId task_id f ts

/-- `TaskManager.update_task`: mutate the fields of the first task with
the given id (a no-op returning `none` when absent), returning the
mutated task. -/
def update_task (tm : TaskManager) (task_id : Nat) (kwargs : List FieldAssign) :
    TaskManager × Option Task :=
  match get_task tm task_id with
  | none => (tm, none)
  | some t =>
    ({ tm with tasks := updateFirstWithId task_id (applyFields kwargs) tm.tasks },
     some (applyFields kwargs t))

/-- `TaskManager.delete_task`: `self.tasks.remove(task)` removes the
first list element equal to the found task. -/
def delete_task (tm : TaskManager) (task_id : Nat) : TaskManager × Bool :=
  match get_task tm task_id with
  | none => (tm, false)
  | some t => ({ tm with tasks := tm.tasks.erase t }, true)

/-- `TaskManager.filter_tasks`: successively narrow the list, but only
for the keys `assignee`, `status` and `priority`; any other key leaves
the running list untouched. -/
def filter_tasks (tm : TaskManager) (filters : List (String × String)) : List Task :=
  filters.foldl
    (fun acc kv =>
      if kv.1 = "assignee" then acc.filter (fun t => t.assignee == kv.2)
      else if kv.1 = "status" then acc.filter (fun t => t.status == kv.2)
      else if kv.1 = "priority" then acc.filter (fun t => t.priority == kv.2)
      else acc)
    tm.tasks

/-- `TaskManager.bulk_update`: apply the same field map to every task,
returning the updated list. -/
def bulk_update (tm : TaskManager) (kwargs : List FieldAssign) : TaskManager × List Task :=
  let ts := tm.tasks.map (applyFields kwargs)
  ({ tm with tasks := ts }, ts)

/-! ## Parsers (src/utils/parsers.py)

Every Python regex is transcribed into a `List Atom`, named after the
place it is used. -/

/-- `'([^']+)'` / `"([^"]+)"` -/
def pat_quoted (q : Char) : List Atom :=
  [Atom.lit (String.singleton q), Atom.cls (fun c => c ≠ q) true true,
   Atom.lit (String.singleton q)]

/-- `rename\s+.*?\s+to\s+(.+)` (IGNORECASE; `.` does not match `\n`). -/
def pat_rename : List Atom :=
  [Atom.lit "rename", ws1, Atom.gap, ws1, Atom.lit "to", ws1,
   Atom.cls (fun c => c ≠ '\n') true true]

/-- `(?:called\s+|named\s+|titled\s+|:\s*)` -/
def instrTail : Atom :=
  Atom.alt [[Atom.lit "called", ws1], [Atom.lit "named", ws1],
            [Atom.lit "titled", ws1], [Atom.lit ":", ws0]]

/-- `TASK_INSTRUCTION_PATTERNS`, each anchored `^.*?...` (IGNORECASE). -/
def TASK_INSTRUCTION_PATTERNS : List (List Atom) :=
  [ [Atom.gap, Atom.lit "create", ws1, Atom.opt [Atom.lit "a", ws1],
     Atom.opt [Atom.lit "new", ws1], Atom.lit "task", ws0, instrTail],
    [Atom.gap, Atom.lit "add", ws1, Atom.opt [Atom.lit "a", ws1],
     Atom.opt [Atom.lit "new", ws1], Atom.lit "task", ws0, instrTail],
    [Atom.gap, Atom.lit "new", ws1, Atom.lit "task", ws0,
     Atom.alt [[Atom.lit "called", ws1], [Atom.lit "named", ws1],
               [Atom.lit "titled", ws1], [Atom.lit "for", ws1], [Atom.lit ":", ws0]]],
    [Atom.gap, Atom.lit "task", ws0, instrTail] ]

/-- `\bfor\s+(\w+)` (IGNORECASE). -/
def pat_for_assignee : List Atom :=
  [Atom.wb, Atom.lit "for", ws1, Atom.cls isWordChar true true]

/-- `\s+for\s+\w+` (IGNORECASE), stripped from the title. -/
def pat_for_strip : List Atom :=
  [ws1, Atom.lit "for", ws1, Atom.cls isWordChar true false]

/-- `\b(high|medium|low)\s+priority\b` (IGNORECASE). -/
def pat_priority : List Atom :=
  [Atom.wb, Atom.alts ["high", "medium", "low"] true, ws1, Atom.lit "priority", Atom.wb]

/-- `\s+with\s+(high|medium|low)\s+priority` (IGNORECASE). -/
def pat_priority_strip : List Atom :=
  [ws1, Atom.lit "with", ws1, Atom.alts ["high", "medium", "low"] false, ws1,
   Atom.lit "priority"]

/-- `\bdue\s+([0-9-]+)` (IGNORECASE). -/
def pat_due : List Atom :=
  [Atom.wb, Atom.lit "due", ws1, Atom.cls (fun c => c.isDigit || c = '-') true true]

/-- `\s+due\s+[0-9-]+` (IGNORECASE). -/
def pat_due_strip : List Atom :=
  [ws1, Atom.lit "due", ws1, Atom.cls (fun c => c.isDigit || c = '-') true false]

/-- `^(to\s+)?`: the optional group makes the substitution remove a
leading `to` + whitespace when present and do nothing otherwise. -/
def pat_leading_to : List Atom := [Atom.opt [Atom.lit "to", ws1]]

def isQuoteChar (c : Char) : Bool := c = '\'' || c = '"'

/-- Result record of `parse_task_creation_input` (its returned dict;
`due_date` is always a string by the time it is returned). -/
structure ParsedCreate where
  title : String
  assignee : String
  priority : String
  due_date : String
deriving DecidableEq

/-- The quoted-title extraction loop: single quotes first, then double
quotes, first match wins; the captured group is stripped. -/
def extractQuotedTitle (task_description : String) : String :=
  match reCaps (pat_quoted '\'') task_description with
  | some [t] => pyStrip t
  | _ =>
    match reCaps (pat_quoted '"') task_description with
    | some [t] => pyStrip t
    | _ => task_description

/-- The instruction-phrase cleanup loop: first pattern whose removal
changes the title to something non-empty wins. -/
def applyInstructionPatterns : List (List Atom) → String → String
  | [], title => title
  | p :: ps, title =>
    let new_title := pyStrip (reSubStart p title)
    if new_title ≠ "" ∧ new_title ≠ title then new_title
    else applyInstructionPatterns ps title

/-- `parse_task_creation_input(task_description)`.  `dd7` models the
default due date `(datetime.now() + timedelta(days=7)).strftime(...)`. -/
def parse_task_creation_input (task_description : String) (dd7 : String) : ParsedCreate :=
  let title0 := extractQuotedTitle task_description
  let title1 :=
    if title0 = task_description then
      match reCaps pat_rename task_description with
      | some [t] => pyStrip t
      | _ => applyInstructionPatterns TASK_INSTRUCTION_PATTERNS title0
    else title0
  let (assignee, title2) :=
    match reCaps pat_for_assignee task_description with
    | some [a] => (a, reSubAll pat_for_strip "" title1)
    | _ => ("unassigned", title1)
  let (priority, title3) :=
    match reCaps pat_priority task_description with
    | some [p] => (pyLower p, reSubAll pat_priority_strip "" title2)
    | _ => ("medium", title2)
  let (due_date, title4) :=
    match reCaps pat_due task_description with
    | some [d] => (d, reSubAll pat_due_strip "" title3)
    | _ => (dd7, title3)
  let title5 := pyStrip title4
  let title6 := reSubStart pat_leading_to title5
  let title7 : String := ⟨(title6.data.reverse.dropWhile isQuoteChar).reverse⟩
  let title8 : String := ⟨title7.data.dropWhile isQuoteChar⟩
  { title := pyStrip title8, assignee := assignee, priority := priority,
    due_date := due_date }

/-! ### Update / bulk parsing -/

/-- `STATUS_PATTERNS`, in their fixed order. -/
def pat_status_done : List Atom :=
  [Atom.wb, Atom.alts ["done", "completed", "finished"] false, Atom.wb]

def pat_status_pending : List Atom :=
  [Atom.wb, Atom.alts ["pending", "todo", "waiting"] false, Atom.wb]

/-- `\b(in[_\s]progress|working|started)\b` -/
def pat_status_in_progress : List Atom :=
  [Atom.wb,
   Atom.alt [[Atom.lit "in", Atom.chr (fun c => c = '_' || isPyWs c), Atom.lit "progress"],
             [Atom.lit "working"], [Atom.lit "started"]],
   Atom.wb]

def STATUS_PATTERNS : List (List Atom × String) :=
  [ (pat_status_done, "done"),
    (pat_status_pending, "pending"),
    (pat_status_in_progress, "in_progress") ]

/-- First status pattern that matches, in order. -/
def findStatus (s : String) : Option String :=
  (STATUS_PATTERNS.find? (fun ps => reTest ps.1 s)).map (fun ps => ps.2)

/-- `\ball\s+tasks?\b` -/
def pat_all_tasks : List Atom :=
  [Atom.wb, Atom.lit "all", ws1, Atom.lit "task", Atom.opt [Atom.lit "s"], Atom.wb]

/-- `\btask\s+(\d+)` -/
def pat_task_id : List Atom :=
  [Atom.wb, Atom.lit "task", ws1, Atom.cls Char.isDigit true true]

/-- `\bunassign.*?task\s+<id>\b` -/
def pat_unassign_1 (idStr : String) : List Atom :=
  [Atom.wb, Atom.lit "unassign", Atom.gap, Atom.lit "task", ws1, Atom.lit idStr, Atom.wb]

/-- `\btask\s+<id>.*?unassign` -/
def pat_unassign_2 (idStr : String) : List Atom :=
  [Atom.wb, Atom.lit "task", ws1, Atom.lit idStr, Atom.gap, Atom.lit "unassign"]

/-- `\bremove.*?assignee.*?from.*?task\s+<id>\b` -/
def pat_unassign_3 (idStr : String) : List Atom :=
  [Atom.wb, Atom.lit "remove", Atom.gap, Atom.lit "assignee", Atom.gap, Atom.lit "from",
   Atom.gap, Atom.lit "task", ws1, Atom.lit idStr, Atom.wb]

/-- `\bassign.*?to\s+(\w+)` -/
def pat_assign_to : List Atom :=
  [Atom.wb, Atom.lit "assign", Atom.gap, Atom.lit "to", ws1, Atom.cls isWordChar true true]

/-- Digit-run to a number (`int` on a `(\d+)` capture). -/
def digitsToNat (l : List Char) : Nat :=
  l.foldl (fun acc c => acc * 10 + (c.toNat - '0'.toNat)) 0

inductive UpdateType where
  | status
  | assignee
deriving DecidableEq

/-- Result of `parse_task_update_input` (its returned dict). -/
inductive ParsedUpdate where
  | bulk
  | err (msg : String)
  | single (task_id : Nat) (update_type : UpdateType) (new_value : String)
deriving DecidableEq

/-- `parse_task_update_input(update_description)`. -/
def parse_task_update_input (update_description : String) : ParsedUpdate :=
  if reTest pat_all_tasks update_description then .bulk
  else
    match reCaps pat_task_id update_description with
    | some [ds] =>
      let task_id := digitsToNat ds.data
      (match findStatus update_description with
       | some st => .single task_id .status st
       | none =>
         let idStr := toString task_id
         if reTest (pat_unassign_1 idStr) update_description
            || reTest (pat_unassign_2 idStr) update_description
            || reTest (pat_unassign_3 idStr) update_description then
           .single task_id .assignee "unassigned"
         else
           match reCaps pat_assign_to update_description with
           | some [a] => .single task_id .assignee a
           | _ =>
             .err ("I couldn't understand what you want to update for Task " ++
                   toString task_id ++ "."))
    | _ =>
      .err "Please specify the task ID (e.g., \"task 2\") or use \"all tasks\" for bulk operations."

/-- `BULK_UNASSIGN_PATTERNS` -/
def BULK_UNASSIGN_PATTERNS : List (List Atom) :=
  [ [Atom.wb, Atom.lit "unassign", Atom.gap, Atom.lit "all", Atom.gap,
     Atom.lit "task", Atom.opt [Atom.lit "s"], Atom.wb],
    [Atom.wb, Atom.lit "make", Atom.gap, Atom.lit "all", Atom.gap,
     Atom.lit "task", Atom.opt [Atom.lit "s"], Atom.gap, Atom.lit "unassigned", Atom.wb],
    [Atom.wb, Atom.lit "remove", Atom.gap, Atom.lit "assignee", Atom.opt [Atom.lit "s"],
     Atom.gap, Atom.lit "from", Atom.gap, Atom.lit "all", Atom.gap,
     Atom.lit "task", Atom.opt [Atom.lit "s"], Atom.wb],
    [Atom.wb, Atom.lit "all", Atom.gap, Atom.lit "task", Atom.opt [Atom.lit "s"],
     Atom.gap, Atom.lit "unassigned", Atom.wb] ]

/-- `\bassign.*?all.*?tasks?.*?to\s+(\w+)` -/
def pat_assign_all_to : List Atom :=
  [Atom.wb, Atom.lit "assign", Atom.gap, Atom.lit "all", Atom.gap,
   Atom.lit "task", Atom.opt [Atom.lit "s"], Atom.gap, Atom.lit "to", ws1,
   Atom.cls isWordChar true true]

/-- Result of `parse_bulk_update_input` (its returned dict). -/
inductive ParsedBulk where
  | unassign_all
  | assign_all (assignee : String)
  | status_all (status : String)
  | err (msg : String)
deriving DecidableEq

/-- `parse_bulk_update_input(update_description)`. -/
def parse_bulk_update_input (update_description : String) : ParsedBulk :=
  if BULK_UNASSIGN_PATTERNS.any (fun p => reTest p update_description) then .unassign_all
  else
    match reCaps pat_assign_all_to update_description with
    | some [a] => .assign_all a
    | _ =>
      match findStatus update_description with
      | some st => .status_all st
      | none => .err "I couldn't understand the bulk operation."

/-! ### Meeting-content classification and extraction -/

/-- `MEETING_INDICATORS` (all searched with IGNORECASE). -/
def MEETING_INDICATORS : List (List Atom) :=
  [ [Atom.lit "from", Atom.gap, Atom.opt [Atom.lit "this", ws1], Atom.lit "meeting",
     Atom.gap, Atom.lit "create", Atom.gap, Atom.lit "task", Atom.opt [Atom.lit "s"]],
    [Atom.lit "meeting", ws1, Atom.lit "summary", Atom.gap, Atom.lit "create",
     Atom.gap, Atom.lit "task", Atom.opt [Atom.lit "s"]],
    [Atom.lit "create", Atom.gap, Atom.lit "task", Atom.opt [Atom.lit "s"],
     Atom.gap, Atom.lit "from", Atom.gap, Atom.lit "meeting"],
    [Atom.lit "break", Atom.gap, Atom.lit "down", Atom.gap, Atom.lit "into",
     Atom.gap, Atom.lit "task", Atom.opt [Atom.lit "s"]],
    [Atom.lit "actionable", Atom.gap, Atom.lit "item", Atom.opt [Atom.lit "s"],
     Atom.gap, Atom.lit "from"],
    [Atom.lit "meeting", ws1, Atom.lit "summary"],
    [Atom.lit "demo", ws1, Atom.lit "meeting"],
    [Atom.lit "meeting", Atom.gap, Atom.lit "notes"] ]

/-- `is_meeting_content(content)`. -/
def is_meeting_content (content : String) : Bool :=
  MEETING_INDICATORS.any (fun p => reTest p content)

/-- `[:\s]*` -/
def colonWs0 : Atom := Atom.cls (fun c => c = ':' || isPyWs c) false false

/-- The four `^`-anchored instruction strips of `parse_meeting_content`
(IGNORECASE). -/
def MEETING_STRIP_PATTERNS : List (List Atom) :=
  [ [Atom.gap, Atom.lit "from", Atom.gap, Atom.opt [Atom.lit "this", ws1],
     Atom.lit "meeting", Atom.gap, Atom.lit "create", Atom.gap,
     Atom.lit "task", Atom.opt [Atom.lit "s"], colonWs0],
    [Atom.gap, Atom.lit "meeting", ws1, Atom.lit "summary", Atom.gap,
     Atom.lit "create", Atom.gap, Atom.lit "task", Atom.opt [Atom.lit "s"], colonWs0],
    [Atom.gap, Atom.lit "create", Atom.gap, Atom.lit "task", Atom.opt [Atom.lit "s"],
     Atom.gap, Atom.lit "from", Atom.gap, Atom.lit "meeting", colonWs0],
    [Atom.gap, Atom.lit "break", Atom.gap, Atom.lit "down", Atom.gap,
     Atom.lit "into", Atom.gap, Atom.lit "task", Atom.opt [Atom.lit "s"], colonWs0] ]

/-- The strip loop of `parse_meeting_content`: the stripped substitution
result is kept (and the loop left) as soon as it differs from the
current content. -/
def meetingStripLoop : List (List Atom) → String → String
  | [], content => content
  | p :: ps, content =>
    let new_content := pyStrip (reSubStart p content)
    if new_content ≠ content then new_content else meetingStripLoop ps content

/-- `parse_meeting_content(meeting_description)`. -/
def parse_meeting_content (meeting_description : String) : String :=
  meetingStripLoop MEETING_STRIP_PATTERNS meeting_description

/-! ### Selection parsing -/

/-- Python `int(str)` on a token (optional surrounding whitespace,
optional sign, at least one digit). -/
def allDigits : List Char → Bool
  | [] => false
  | l => l.all Char.isDigit

def pyInt : String → Option Int := fun s =>
  let t := pyStrip s
  match t.data with
  | '-' :: rest => if allDigits rest then some (-(digitsToNat rest : Int)) else none
  | '+' :: rest => if allDigits rest then some (digitsToNat rest : Int) else none
  | l => if allDigits l then some (digitsToNat l : Int) else none

/-- Python `range(a, b)` over integers. -/
def intRange (a b : Int) : List Int :=
  (List.range (b - a).toNat).map (fun k => a + k)

/-- The comma-part collection loop of `parse_task_selection` (1-based
numbers and one-dash ranges; tokens failing `int()` are dropped). -/
def collectSelection (parts : List String) : List Int :=
  parts.foldl
    (fun acc part =>
      if part.data.contains '-' ∧ (part.data.filter (fun c => c = '-')).length = 1 then
        match pySplit '-' part with
        | [a, b] =>
          (match pyInt a, pyInt b with
           | some sa, some sb => acc ++ intRange (sa - 1) sb
           | _, _ => acc)
        | _ => acc
      else
        match pyInt part with
        | some v => acc ++ [v - 1]
        | none => acc)
    []

/-- `parse_task_selection(selection, max_tasks)`.

`none` models Python's `None` (invalid selection); `some []` is the
explicit cancel; otherwise the valid 0-based indices.  Python returns
`list(set(...))`, a deduplicated list in unspecified order; it is
modelled canonically in increasing order. -/
def parse_task_selection (selection : String) (max_tasks : Nat) : Option (List Nat) :=
  let sel := pyStrip (pyLower selection)
  if sel = "none" ∨ sel = "cancel" ∨ sel = "no" then some []
  else if sel = "all" ∨ sel = "yes" ∨ sel = "create all" then some (List.range max_tasks)
  else
    let parts := pySplit ',' ⟨sel.data.filter (fun c => c ≠ ' ')⟩
    let collected := collectSelection parts
    let selected := (List.range max_tasks).filter (fun i => collected.contains (Int.ofNat i))
    if selected.isEmpty then none else some selected

/-! ## Tool executors (src/tools/task_tools.py)

The global `task_manager` and the global `suggested_tasks` buffer are
threaded explicitly; the string-formatting helpers of
`src/utils/formatters.py` are presentation only, so each tool's result
is modelled as the structured outcome that selects the formatter. -/

/-- One suggested task from the meeting breakdown. -/
structure SuggestedItem where
  title : String
  details : String
  suggested_assignee : String
  priority : String
deriving DecidableEq

/-- `re.split(r'\n\s*(?:\d+\.|\-|\•|[a-zA-Z]\))', content)` -/
def pat_section_split : List Atom :=
  [Atom.lit "\n", ws0,
   Atom.alt [[Atom.cls Char.isDigit true false, Atom.lit "."],
             [Atom.lit "-"], [Atom.lit "•"],
             [Atom.chr Char.isAlpha, Atom.lit ")"]]]

/-- `^(brief|state|highlight|show|demonstrate|optional)` (IGNORECASE) -/
def pat_filler : List Atom :=
  [Atom.alts ["brief", "state", "highlight", "show", "demonstrate", "optional"] false]

/-- `[:\-–—]+\s*`, replaced by `" - "`. -/
def pat_punct_run : List Atom :=
  [Atom.cls (fun c => c = ':' || c = '-' || c = '–' || c = '—') true false, ws0]

/-- Python `s[:n] + ('...' if len(s) > n else '')`. -/
def truncEllipsis (n : Nat) (s : String) : String :=
  pyTake n s ++ (if s.data.length > n then "..." else "")

/-- The per-section processing of `handle_meeting_breakdown`: strip,
keep only substantial sections, clean the first line into a task name,
and build the suggested item. -/
def sectionToItem (sect : String) : Option SuggestedItem :=
  let sec := pyStrip sect
  if sec ≠ "" ∧ sec.data.length > 10 then
    let main_line := pyStrip ((pySplit '\n' sec).headD "")
    if main_line ≠ "" then
      let task_name := pyStrip (reSubStart pat_filler main_line)
      let task_name := pyStrip (reSubAll pat_punct_run " - " task_name)
      if task_name ≠ "" ∧ task_name.data.length > 5 then
        some { title := truncEllipsis 80 task_name,
               details := truncEllipsis 200 sec,
               suggested_assignee := "unassigned",
               priority := "medium" }
      else none
    else none
  else none

/-- The segmentation step: sections after the first list marker
(`sections[1:]`), processed in order. -/
def segItems (content : String) : List SuggestedItem :=
  ((reSplit pat_section_split content).drop 1).filterMap sectionToItem

/-- The generic item the keyword fallback emits for a matching pattern. -/
def mkKeywordItem (task_title : String) : SuggestedItem :=
  { title := task_title, details := "Based on meeting content",
    suggested_assignee := "unassigned", priority := "medium" }

/-- The keyword fallback: one item per `KEYWORD_TASKS` pattern that
matches the content (every matching pattern contributes). -/
def keywordItems (content : String) : List SuggestedItem :=
  KEYWORD_TASKS.filterMap
    (fun pt => if reTest [Atom.alts pt.1 false] content then some (mkKeywordItem pt.2) else none)

/-- The `actionable_items` list `handle_meeting_breakdown` computes:
segmentation first, keyword fallback only when it found nothing. -/
def meeting_actionable_items (content : String) : List SuggestedItem :=
  let seg := segItems content
  if seg.isEmpty then keywordItems content else seg

inductive MeetingOutcome where
  | noActionable
  | suggested (items : List SuggestedItem)
deriving DecidableEq

/-- `handle_meeting_breakdown(meeting_description)` as a transformer of
the `suggested_tasks` buffer: the buffer is overwritten only when at
least one actionable item was extracted. -/
def handle_meeting_breakdown (buffer : List SuggestedItem) (meeting_description : String) :
    List SuggestedItem × MeetingOutcome :=
  let content := parse_meeting_content meeting_description
  let actionable_items := meeting_actionable_items content
  if actionable_items.isEmpty then (buffer, .noActionable)
  else (actionable_items, .suggested actionable_items)

inductive CreateOutcome where
  | meeting (m : MeetingOutcome)
  | invalidTitle
  | confirm (assignee matched : String) (confidence : ℚ)
  | unknownName (assignee : String)
  | created (t : Task)
deriving DecidableEq

/-- `create_task_tool(task_description)`; state `(task_manager,
suggested_tasks buffer)` in, state and outcome out.  In the `< 100`
confirmation branch the code has already overwritten its local
`assignee` with `matched_name`, so the formatter receives the matched
name twice — mirrored here. -/
def create_task_tool (tm : TaskManager) (buffer : List SuggestedItem)
    (task_description : String) (now dd7 : String) :
    TaskManager × List SuggestedItem × CreateOutcome :=
  if is_meeting_content task_description then
    let r := handle_meeting_breakdown buffer task_description
    (tm, r.1, .meeting r.2)
  else
    let parsed := parse_task_creation_input task_description dd7
    if pyStrip parsed.title = "" then (tm, buffer, .invalidTitle)
    else if parsed.assignee ≠ "unassigned" then
      match fuzzy_match_name parsed.assignee with
      | (some matched_name, confidence) =>
        if confidence ≥ 70 then
          if confidence < 100 then (tm, buffer, .confirm matched_name matched_name confidence)
          else
            let r := add_task tm
              (Task.create_new parsed.title matched_name parsed.priority
                (some parsed.due_date) now dd7)
            (r.1, buffer, .created r.2)
        else (tm, buffer, .unknownName parsed.assignee)
      | (none, _) => (tm, buffer, .unknownName parsed.assignee)
    else
      let r := add_task tm
        (Task.create_new parsed.title "unassigned" parsed.priority
          (some parsed.due_date) now dd7)
      (r.1, buffer, .created r.2)

inductive BulkOutcome where
  | err (msg : String)
  | unassignedAll (olds : List (Nat × String))
  | assignedAll (matched : String) (confidence : ℚ) (olds : List (Nat × String))
  | statusAll (status : String) (olds : List (Nat × String))
  | unknownName (raw : String)
deriving DecidableEq

/-- The per-task loop of the bulk branches: iterate over a snapshot of
the task list, updating each task by id and collecting `(id, old
value)`.  (Snapshot reads of the old value coincide with the live reads
of the source whenever ids are unique, which the store guarantees.) -/
def bulkLoop (tm : TaskManager) (old : Task → String) (mk : String → FieldAssign)
    (v : String) : TaskManager × List (Nat × String) :=
  tm.tasks.foldl
    (fun acc t => ((update_task acc.1 t.id [mk v]).1, acc.2 ++ [(t.id, old t)]))
    (tm, [])

/-- `handle_bulk_task_update(update_description)`. -/
def handle_bulk_task_update (tm : TaskManager) (update_description : String) :
    TaskManager × BulkOutcome :=
  match parse_bulk_update_input update_description with
  | .err m => (tm, .err m)
  | .unassign_all =>
    let r := bulkLoop tm Task.assignee FieldAssign.assignee "unassigned"
    (r.1, .unassignedAll r.2)
  | .assign_all potential_assignee =>
    if pyLower potential_assignee = "unassigned" then
      let r := bulkLoop tm Task.assignee FieldAssign.assignee "unassigned"
      (r.1, .unassignedAll r.2)
    else
      (match fuzzy_match_name potential_assignee with
       | (some matched_name, confidence) =>
         if confidence ≥ 70 then
           let r := bulkLoop tm Task.assignee FieldAssign.assignee matched_name
           (r.1, .assignedAll matched_name confidence r.2)
         else (tm, .unknownName potential_assignee)
       | (none, _) => (tm, .unknownName potential_assignee))
  | .status_all status =>
    let r := bulkLoop tm Task.status FieldAssign.status status
    (r.1, .statusAll status r.2)

inductive UpdateOutcome where
  | err (msg : String)
  | notFound (task_id : Nat)
  | statusUpdated (task_id : Nat) (old new : String)
  | assigneeUpdated (task_id : Nat) (old new : String)
  | assigneeInterpreted (task_id : Nat) (raw matched : String) (confidence : ℚ)
  | unknownName (raw : String)
  | bulk (b : BulkOutcome)
deriving DecidableEq

/-- `update_task_tool(update_description)`. -/
def update_task_tool (tm : TaskManager) (update_description : String) :
    TaskManager × UpdateOutcome :=
  match parse_task_update_input update_description with
  | .err m => (tm, .err m)
  | .bulk =>
    let r := handle_bulk_task_update tm update_description
    (r.1, .bulk r.2)
  | .single task_id update_type new_value =>
    match get_task tm task_id with
    | none => (tm, .notFound task_id)
    | some task =>
      match update_type with
      | .status =>
        ((update_task tm task_id [FieldAssign.status new_value]).1,
         .statusUpdated task_id task.status new_value)
      | .assignee =>
        if new_value = "unassigned" then
          ((update_task tm task_id [FieldAssign.assignee "unassigned"]).1,
           .assigneeUpdated task_id task.assignee "unassigned")
        else
          match fuzzy_match_name new_value with
          | (some matched_name, confidence) =>
            if confidence ≥ 70 then
              let tm' := (update_task tm task_id [FieldAssign.assignee matched_name]).1
              if confidence < 100 then
                (tm', .assigneeInterpreted task_id new_value matched_name confidence)
              else (tm', .assigneeUpdated task_id task.assignee matched_name)
            else (tm, .unknownName new_value)
          | (none, _) => (tm, .unknownName new_value)

inductive SelOutcome where
  | noSuggestions
  | invalid
  | cancelled
  | createdTasks (ids : List Nat)
deriving DecidableEq

/-- `create_suggested_tasks_tool(selection)`: consume the suggestion
buffer according to the parsed selection.  The parsed index list is
already in the ascending order Python's `sorted` produces, and every
index is below the buffer length, so the indexing never misses. -/
def create_suggested_tasks_tool (tm : TaskManager) (buffer : List SuggestedItem)
    (selection : String) (now dd7 : String) :
    TaskManager × List SuggestedItem × SelOutcome :=
  if buffer.isEmpty then (tm, buffer, .noSuggestions)
  else
    match parse_task_selection selection buffer.length with
    | none => (tm, buffer, .invalid)
    | some [] => (tm, [], .cancelled)
    | some idxs =>
      let r := idxs.foldl
        (fun acc idx =>
          match buffer[idx]? with
          | some td =>
            let a := add_task acc.1
              (Task.create_new td.title td.suggested_assignee td.priority none now dd7)
            (a.1, acc.2 ++ [a.2.id])
          | none => acc)
        (tm, ([] : List Nat))
      (r.1, [], .createdTasks r.2)

/-! ## Interleaved store traces (for the id-uniqueness property) -/

/-- One store operation of an interleaved `add`/`delete` sequence. -/
inductive StoreOp where
  | add (t : Task)
  | delete (task_id : Nat)

/-- Run a sequence of operations, collecting the ids returned by the
`add` calls, in order. -/
def runOps : TaskManager → List StoreOp → TaskManager × List Nat
  | tm, [] => (tm, [])
  | tm, StoreOp.add t :: ops =>
    let r := add_task tm t
    let rest := runOps r.1 ops
    (rest.1, r.2.id :: rest.2)
  | tm, StoreOp.delete i :: ops => runOps (delete_task tm i).1 ops

/-- The store invariant: every stored id is at most the counter. -/
def StoreInv (tm : TaskManager) : Prop := ∀ t ∈ tm.tasks, t.id ≤ tm.task_counter

/-! ## Spec-side definitions (for refinement comparisons) -/

/-- Modelled from the spec: the field of a task named by a criteria
key, read as a string (`t[key]` in the spec's filter-correctness
property); `none` for a key that names no string field. -/
def taskFieldGet (t : Task) (key : String) : Option String :=
  if key = "title" then some t.title
  else if key = "assignee" then some t.assignee
  else if key = "status" then some t.status
  else if key = "priority" then some t.priority
  else if key = "created_at" then some t.created_at
  else if key = "due_date" then some t.due_date
  else none

/-- Modelled from the spec: `filter(C)` returns exactly
`{t ∈ T : ∀ key ∈ C, t[key] == C[key]}` (logical AND across every
criterion present). -/
def filter_spec (tasks : List Task) (criteria : List (String × String)) : List Task :=
  tasks.filter (fun t => criteria.all (fun kv => taskFieldGet t kv.1 == some kv.2))

/-- The per-criterion test `filter_tasks` actually applies: the three
recognized keys constrain, every other key is ignored. -/
def filter_crit (kv : String × String) (t : Task) : Bool :=
  if kv.1 = "assignee" then t.assignee == kv.2
  else if kv.1 = "status" then t.status == kv.2
  else if kv.1 = "priority" then t.priority == kv.2
  else true

/-! # Theorems -/

/-! ## Filtering (claim C2) -/

theorem filterStep_eq (kv : String × String) (acc : List Task) :
    (if kv.1 = "assignee" then acc.filter (fun t => t.assignee == kv.2)
     else if kv.1 = "status" then acc.filter (fun t => t.status == kv.2)
     else if kv.1 = "priority" then acc.filter (fun t => t.priority == kv.2)
     else acc) = acc.filter (fun t => filter_crit kv t) := by
  unfold filter_crit
  by_cases h1 : kv.1 = "assignee" <;> by_cases h2 : kv.1 = "status" <;>
    by_cases h3 : kv.1 = "priority" <;> simp [h1, h2, h3]

theorem filter_foldl_eq (C : List (String × String)) (acc : List Task) :
    C.foldl
      (fun acc kv =>
        if kv.1 = "assignee" then acc.filter (fun t => t.assignee == kv.2)
        else if kv.1 = "status" then acc.filter (fun t => t.status == kv.2)
        else if kv.1 = "priority" then acc.filter (fun t => t.priority == kv.2)
        else acc)
      acc
    = acc.filter (fun t => C.all (fun kv => filter_crit kv t)) := by
  induction C generalizing acc with
  | nil => simp
  | cons kv C ih =>
    rw [List.foldl_cons, filterStep_eq, ih, List.filter_filter]
    apply List.filter_congr
    intro t _
    simp [Bool.and_comm]

/-- Claim C2 fails as stated on the code: a criterion whose key is not
one of `assignee`, `status`, `priority` does not constrain the result.
With the single criterion `title = "Nothing"`, `filter_tasks` returns
all three mock tasks while the spec's filter semantics returns the
empty set. -/
theorem C2_counterexample :
    filter_tasks initial_task_manager [("title", "Nothing")] ≠
      filter_spec initial_task_manager.tasks [("title", "Nothing")] ∧
    filter_tasks initial_task_manager [("title", "Nothing")] = initial_task_manager.tasks ∧
    filter_spec initial_task_manager.tasks [("title", "Nothing")] = [] := by
  exact ⟨by decide, by decide, by decide⟩

/-- Claim C2 (amended): for every stored task set and every criteria
map, `filter_tasks` returns exactly the tasks satisfying every
criterion whose key is one of the recognized keys `assignee`, `status`,
`priority` (logical AND across those); criteria with any other key
impose no constraint and are silently ignored. -/
theorem C2_filter_and_semantics (tm : TaskManager) (C : List (String × String)) :
    filter_tasks tm C = tm.tasks.filter (fun t => C.all (fun kv => filter_crit kv t)) :=
  filter_foldl_eq C tm.tasks

/-! ## The `created_at` frame property (claim C3) -/

theorem setField_created_at (t : Task) (a : FieldAssign) (h : a.isCreatedAt = false) :
    (setField t a).created_at = t.created_at := by
  cases a <;> simp_all [setField, FieldAssign.isCreatedAt]

theorem applyFields_created_at (kwargs : List FieldAssign)
    (h : ∀ a ∈ kwargs, a.isCreatedAt = false) (t : Task) :
    (applyFields kwargs t).created_at = t.created_at := by
  induction kwargs generalizing t with
  | nil => rfl
  | cons a as ih =>
    have ha : a.isCreatedAt = false := h a (by simp)
    have has : ∀ b ∈ as, b.isCreatedAt = false := fun b hb => h b (by simp [hb])
    calc (applyFields (a :: as) t).created_at
        = (applyFields as (setField t a)).created_at := rfl
      _ = (setField t a).created_at := ih has (setField t a)
      _ = t.created_at := setField_created_at t a ha

theorem updateFirstWithId_forall₂ (task_id : Nat) (f : Task → Task)
    (hf : ∀ t, (f t).created_at = t.created_at) (l : List Task) :
    List.Forall₂ (fun t t' => t'.created_at = t.created_at) l (updateFirstWithId task_id f l) := by
  induction l with
  | nil => exact List.Forall₂.nil
  | cons t ts ih =>
    unfold updateFirstWithId
    by_cases h : t.id = task_id
    · simp only [h, if_true]
      exact List.Forall₂.cons (hf t) (List.forall₂_same.mpr (fun x _ => rfl))
    · simp only [h, if_false]
      exact List.Forall₂.cons rfl ih

/-- Claim C3 fails as stated on the code: `created_at` is an attribute
of `Task`, so an update map containing the key `created_at` passes the
`hasattr` check and overwrites it. -/
theorem C3_counterexample :
    (update_task initial_task_manager 1 [FieldAssign.created_at "2030-01-01"]).1.tasks.map
        Task.created_at ≠
      initial_task_manager.tasks.map Task.created_at := by decide

/-- Claim C3 (amended): `update_task` and `bulk_update` leave every
stored task's `created_at` unchanged for every field map that does not
itself contain the key `created_at` (in particular for all maps the
tool layer ever passes, which only assign `status` or `assignee`). -/
theorem C3_created_at_frame (tm : TaskManager) (task_id : Nat) (kwargs : List FieldAssign)
    (h : ∀ a ∈ kwargs, a.isCreatedAt = false) :
    List.Forall₂ (fun t t' => t'.created_at = t.created_at) tm.tasks
      (update_task tm task_id kwargs).1.tasks ∧
    List.Forall₂ (fun t t' => t'.created_at = t.created_at) tm.tasks
      (bulk_update tm kwargs).1.tasks := by
  constructor
  · unfold update_task
    cases get_task tm task_id with
    | none => exact List.forall₂_same.mpr (fun x _ => rfl)
    | some t =>
      exact updateFirstWithId_forall₂ task_id (applyFields kwargs)
        (applyFields_created_at kwargs h) tm.tasks
  · unfold bulk_update
    simp only [List.forall₂_map_right_iff]
    exact List.forall₂_same.mpr (fun x _ => applyFields_created_at kwargs h x)

/-- Witness for C3: a concrete status-only update on the mock store. -/
theorem C3_created_at_frame_witness :
    List.Forall₂ (fun t t' => t'.created_at = t.created_at) initial_task_manager.tasks
      (update_task initial_task_manager 2 [FieldAssign.status "done"]).1.tasks ∧
    List.Forall₂ (fun t t' => t'.created_at = t.created_at) initial_task_manager.tasks
      (bulk_update initial_task_manager [FieldAssign.status "done"]).1.tasks :=
  C3_created_at_frame initial_task_manager 2 [FieldAssign.status "done"] (by decide)

/-! ## Id monotonicity over interleaved traces (claim C4) -/

theorem delete_task_counter (tm : TaskManager) (i : Nat) :
    (delete_task tm i).1.task_counter = tm.task_counter := by
  unfold delete_task
  cases get_task tm i <;> rfl

theorem delete_task_tasks_subset (tm : TaskManager) (i : Nat) :
    ∀ t ∈ (delete_task tm i).1.tasks, t ∈ tm.tasks := by
  unfold delete_task
  cases get_task tm i with
  | none => exact fun t ht => ht
  | some u => exact fun t ht => List.mem_of_mem_erase ht

theorem runOps_counter_le (ops : List StoreOp) (tm : TaskManager) :
    tm.task_counter ≤ (runOps tm ops).1.task_counter := by
  induction ops generalizing tm with
  | nil => exact le_refl _
  | cons op ops ih =>
    cases op with
    | add t =>
      have h := ih (add_task tm t).1
      simp only [runOps]
      exact le_trans (Nat.le_succ _) h
    | delete i =>
      have h := ih (delete_task tm i).1
      simp only [runOps]
      exact le_trans (le_of_eq (delete_task_counter tm i).symm) h

theorem runOps_ids_gt (ops : List StoreOp) (tm : TaskManager) :
    ∀ i ∈ (runOps tm ops).2, tm.task_counter < i := by
  induction ops generalizing tm with
  | nil => intro i hi; simp [runOps] at hi
  | cons op ops ih =>
    cases op with
    | add t =>
      intro i hi
      simp only [runOps, List.mem_cons] at hi
      rcases hi with h | h
      · simp [add_task, h]
      · exact Nat.lt_of_le_of_lt (Nat.le_succ _) (ih (add_task tm t).1 i h)
    | delete j =>
      intro i hi
      simp only [runOps] at hi
      have := ih (delete_task tm j).1 i hi
      rwa [delete_task_counter] at this

theorem runOps_pairwise (ops : List StoreOp) (tm : TaskManager) :
    ((runOps tm ops).2).Pairwise (· < ·) := by
  induction ops generalizing tm with
  | nil => exact List.Pairwise.nil
  | cons op ops ih =>
    cases op with
    | add t =>
      simp only [runOps]
      refine List.Pairwise.cons ?_ (ih (add_task tm t).1)
      intro i hi
      exact runOps_ids_gt ops (add_task tm t).1 i hi
    | delete j => exact ih (delete_task tm j).1

theorem runOps_inv (ops : List StoreOp) (tm : TaskManager) (h : StoreInv tm) :
    StoreInv (runOps tm ops).1 := by
  induction ops generalizing tm with
  | nil => exact h
  | cons op ops ih =>
    cases op with
    | add t =>
      refine ih (add_task tm t).1 ?_
      intro u hu
      simp only [add_task, List.mem_append, List.mem_singleton] at hu
      rcases hu with hu | hu
      · exact le_trans (h u hu) (Nat.le_succ _)
      · simp [add_task, hu]
    | delete j =>
      refine ih (delete_task tm j).1 ?_
      intro u hu
      rw [delete_task_counter]
      exact h u (delete_task_tasks_subset tm j u hu)

theorem runOps_fst_append (l₁ l₂ : List StoreOp) (tm : TaskManager) :
    (runOps tm (l₁ ++ l₂)).1 = (runOps (runOps tm l₁).1 l₂).1 := by
  induction l₁ generalizing tm with
  | nil => rfl
  | cons op l₁ ih =>
    cases op with
    | add t => simp only [List.cons_append, runOps]; exact ih (add_task tm t).1
    | delete j => simp only [List.cons_append, runOps]; exact ih (delete_task tm j).1

/-- Claim C4 (confirmed): over any interleaved sequence of `add_task`
and `delete_task` operations starting from a store satisfying the id
invariant, the ids returned by the `add` calls are strictly increasing
and pairwise distinct, and an id present in the store when a `delete`
removes it is never returned by any later `add`. -/
theorem C4_add_ids_monotone (tm : TaskManager) (ops l₁ l₂ : List StoreOp) (d : Nat)
    (hInv : StoreInv tm) (hd : d ∈ (runOps tm l₁).1.tasks.map Task.id) :
    ((runOps tm ops).2).Pairwise (· < ·) ∧ ((runOps tm ops).2).Nodup ∧
    d ∉ (runOps (runOps tm (l₁ ++ [StoreOp.delete d])).1 l₂).2 := by
  refine ⟨runOps_pairwise ops tm, (runOps_pairwise ops tm).imp (fun h => Nat.ne_of_lt h), ?_⟩
  intro hmem
  obtain ⟨t, ht, htid⟩ := List.mem_map.mp hd
  have hinv₁ : StoreInv (runOps tm l₁).1 := runOps_inv l₁ tm hInv
  have hdle : d ≤ (runOps tm l₁).1.task_counter := htid ▸ hinv₁ t ht
  have hcnt : (runOps tm (l₁ ++ [StoreOp.delete d])).1.task_counter =
      (runOps tm l₁).1.task_counter := by
    rw [runOps_fst_append]
    simp only [runOps]
    exact delete_task_counter _ d
  have hgt := runOps_ids_gt l₂ (runOps tm (l₁ ++ [StoreOp.delete d])).1 d hmem
  rw [hcnt] at hgt
  exact absurd hdle (not_le_of_lt hgt)

/-! ## Roster matcher (claims C6, C5) -/

theorem lcsLenF_le_left (f : Nat) : ∀ a b, lcsLenF f a b ≤ a.length := by
  induction f with
  | zero => intro a b; simp [lcsLenF]
  | succ f ih =>
    intro a b
    cases a with
    | nil => simp [lcsLenF]
    | cons a as =>
      cases b with
      | nil => simp [lcsLenF]
      | cons b bs =>
        simp only [lcsLenF, List.length_cons]
        split
        · have := ih as bs; omega
        · have h1 := ih (a :: as) bs
          have h2 := ih as (b :: bs)
          simp only [List.length_cons] at h1
          omega

theorem lcsLenF_le_right (f : Nat) : ∀ a b, lcsLenF f a b ≤ b.length := by
  induction f with
  | zero => intro a b; simp [lcsLenF]
  | succ f ih =>
    intro a b
    cases a with
    | nil => simp [lcsLenF]
    | cons a as =>
      cases b with
      | nil => simp [lcsLenF]
      | cons b bs =>
        simp only [lcsLenF, List.length_cons]
        split
        · have := ih as bs; omega
        · have h1 := ih (a :: as) bs
          have h2 := ih as (b :: bs)
          simp only [List.length_cons] at h2
          omega

theorem lcsLen_le_left (a : List Char) : ∀ b, lcsLen a b ≤ a.length :=
  fun b => lcsLenF_le_left (a.length + b.length) a b

theorem lcsLen_le_right (a : List Char) : ∀ b, lcsLen a b ≤ b.length :=
  fun b => lcsLenF_le_right (a.length + b.length) a b

theorem fuzz_ratio_score_le_100 (a b : String) : fuzz_ratio_score a b ≤ 100 := by
  unfold fuzz_ratio_score
  simp only
  split
  · exact le_refl _
  · rename_i h
    have h1 : lcsLen a.data b.data ≤ a.data.length := lcsLen_le_left a.data b.data
    have h2 : lcsLen a.data b.data ≤ b.data.length := lcsLen_le_right a.data b.data
    have hpos : 0 < a.data.length + b.data.length := Nat.pos_of_ne_zero h
    rw [Rat.mkRat_eq_div]
    rw [div_le_iff₀ (by exact_mod_cast hpos)]
    push_cast
    have hq : (lcsLen a.data b.data : ℚ) * 2 ≤
        (a.data.length : ℚ) + (b.data.length : ℚ) := by exact_mod_cast by omega
    nlinarith

theorem extractOneLoop_snd_eq (q : String) (best : String × ℚ) (cs : List String)
    (hb : best.2 = fuzz_ratio_score q best.1) :
    (extractOneLoop q best cs).2 = fuzz_ratio_score q (extractOneLoop q best cs).1 := by
  induction cs generalizing best with
  | nil => exact hb
  | cons c cs ih =>
    simp only [extractOneLoop]
    split
    · exact ih (c, fuzz_ratio_score q c) rfl
    · exact ih best hb

theorem extractOneLoop_ge (q : String) (best : String × ℚ) (cs : List String) :
    best.2 ≤ (extractOneLoop q best cs).2 := by
  induction cs generalizing best with
  | nil => exact le_refl _
  | cons c cs ih =>
    simp only [extractOneLoop]
    split
    · rename_i hlt
      exact le_trans (le_of_lt hlt) (ih (c, fuzz_ratio_score q c))
    · exact ih best

theorem extractOneLoop_max (q : String) (best : String × ℚ) (cs : List String) :
    ∀ m ∈ cs, fuzz_ratio_score q m ≤ (extractOneLoop q best cs).2 := by
  induction cs generalizing best with
  | nil => intro m hm; simp at hm
  | cons c cs ih =>
    intro m hm
    simp only [extractOneLoop]
    rcases List.mem_cons.mp hm with h | h
    · subst h
      split
      · exact extractOneLoop_ge q (m, fuzz_ratio_score q m) cs
      · rename_i hnlt
        exact le_trans (le_of_not_lt hnlt) (extractOneLoop_ge q best cs)
    · split
      · exact ih (c, fuzz_ratio_score q c) m h
      · exact ih best m h

theorem extractOneLoop_mem (q : String) (best : String × ℚ) (cs : List String) :
    (extractOneLoop q best cs).1 = best.1 ∨ (extractOneLoop q best cs).1 ∈ cs := by
  induction cs generalizing best with
  | nil => exact Or.inl rfl
  | cons c cs ih =>
    simp only [extractOneLoop]
    split
    · rcases ih (c, fuzz_ratio_score q c) with h | h
      · exact Or.inr (List.mem_cons.mpr (Or.inl h))
      · exact Or.inr (List.mem_cons.mpr (Or.inr h))
    · rcases ih best with h | h
      · exact Or.inl h
      · exact Or.inr (List.mem_cons.mpr (Or.inr h))

theorem fuzzy_match_name_snd_le_100 (s : String) (θ : ℚ) :
    (fuzzy_match_name s θ).2 ≤ 100 := by
  unfold fuzzy_match_name
  by_cases h1 : s = ""
  · rw [if_pos h1]; norm_num
  · rw [if_neg h1]
    by_cases h2 : s ∈ TEAM_MEMBERS
    · rw [if_pos h2]
    · rw [if_neg h2]
      cases hloop : extractOneLoop s ("Ravi", fuzz_ratio_score s "Ravi")
          ["Ankita", "Sam", "Alex", "Maya", "Jordan", "Taylor"] with
      | mk best score =>
        have hT : extractOne s TEAM_MEMBERS = some (best, score) := by
          rw [← hloop]; rfl
        rw [hT]
        have hsnd : score = fuzz_ratio_score s best := by
          have h := extractOneLoop_snd_eq s ("Ravi", fuzz_ratio_score s "Ravi")
            ["Ankita", "Sam", "Alex", "Maya", "Jordan", "Taylor"] rfl
          rw [hloop] at h
          exact h
        simp only [ge_iff_le]
        split
        · rw [hsnd]; exact fuzz_ratio_score_le_100 s best
        · norm_num

/-- Claim C6 (confirmed): `fuzzy_match_name` returns `(none, 0)` for
empty input; `(name, 100)` for input exactly (case-sensitively) equal
to a roster entry; otherwise `extractOne` yields the roster entry of
maximal `fuzz.ratio` similarity and the matcher returns it with its
score exactly when the score is at or above the threshold, and
`(none, 0)` when it is strictly below. -/
theorem C6_fuzzy_match_spec (input : String) (θ : ℚ)
    (hne : input ≠ "") (hmem : input ∉ TEAM_MEMBERS) :
    fuzzy_match_name "" θ = (none, 0) ∧
    (∀ n ∈ TEAM_MEMBERS, fuzzy_match_name n θ = (some n, 100)) ∧
    ∃ best score,
      extractOne input TEAM_MEMBERS = some (best, score) ∧
      best ∈ TEAM_MEMBERS ∧
      score = fuzz_ratio_score input best ∧
      (∀ m ∈ TEAM_MEMBERS, fuzz_ratio_score input m ≤ score) ∧
      (θ ≤ score → fuzzy_match_name input θ = (some best, score)) ∧
      (score < θ → fuzzy_match_name input θ = (none, 0)) := by
  refine ⟨rfl, ?_, ?_⟩
  · intro n hn
    fin_cases hn <;> rfl
  · have hT : TEAM_MEMBERS = "Ravi" :: ["Ankita", "Sam", "Alex", "Maya", "Jordan", "Taylor"] := rfl
    set rest : List String := ["Ankita", "Sam", "Alex", "Maya", "Jordan", "Taylor"] with hrest
    set b0 : String × ℚ := ("Ravi", fuzz_ratio_score input "Ravi") with hb0
    refine ⟨(extractOneLoop input b0 rest).1, (extractOneLoop input b0 rest).2,
      ?_, ?_, ?_, ?_, ?_, ?_⟩
    · rw [hT]; rfl
    · rcases extractOneLoop_mem input b0 rest with h | h
      · rw [hT, h]; exact List.mem_cons_self _ _
      · rw [hT]; exact List.mem_cons.mpr (Or.inr h)
    · exact extractOneLoop_snd_eq input b0 rest rfl
    · intro m hm
      rw [hT] at hm
      rcases List.mem_cons.mp hm with h | h
      · subst h
        exact le_trans (le_of_eq rfl) (extractOneLoop_ge input b0 rest)
      · exact extractOneLoop_max input b0 rest m h
    · intro hθ
      unfold fuzzy_match_name
      rw [if_neg hne, if_neg hmem]
      have : extractOne input TEAM_MEMBERS = some (extractOneLoop input b0 rest) := by
        rw [hT]; rfl
      rw [this]
      simp only [ge_iff_le]
      rw [if_pos hθ]
    · intro hθ
      unfold fuzzy_match_name
      rw [if_neg hne, if_neg hmem]
      have : extractOne input TEAM_MEMBERS = some (extractOneLoop input b0 rest) := by
        rw [hT]; rfl
      rw [this]
      simp only [ge_iff_le]
      rw [if_neg (not_le_of_lt hθ)]

/-- Witness for C6: the spec's own example input `"Rave"` at the
default threshold 70 — not empty, not a roster name. -/
theorem C6_fuzzy_match_spec_witness :
    ("Rave" : String) ≠ "" ∧ "Rave" ∉ TEAM_MEMBERS ∧
    (∃ best score,
      extractOne "Rave" TEAM_MEMBERS = some (best, score) ∧
      best ∈ TEAM_MEMBERS ∧
      score = fuzz_ratio_score "Rave" best ∧
      (∀ m ∈ TEAM_MEMBERS, fuzz_ratio_score "Rave" m ≤ score) ∧
      ((70 : ℚ) ≤ score → fuzzy_match_name "Rave" 70 = (some best, score)) ∧
      (score < (70 : ℚ) → fuzzy_match_name "Rave" 70 = (none, 0))) :=
  ⟨by decide, by decide, (C6_fuzzy_match_spec "Rave" 70 (by decide) (by decide)).2.2⟩

/-! ## Create-parsing example (claim C8) -/

/-- Claim C8 (confirmed): on the spec's example input the quoted
content wins title extraction and the `for`-assignee, `with`-priority
and `due`-date spans are extracted; the parsed record is exactly
(title `"Fix login bug"`, raw assignee `"Rave"`, priority `"high"`,
due date `"2024-03-01"`), for every value of the default due date
(which is not consulted).  The raw assignee then resolves to `"Ravi"`
at confidence 75 < 100. -/
theorem C8_parse_create_example (dd7 : String) :
    parse_task_creation_input
        "Create a new task called 'Fix login bug' for Rave with high priority due 2024-03-01"
        dd7 =
      { title := "Fix login bug", assignee := "Rave", priority := "high",
        due_date := "2024-03-01" } ∧
    fuzzy_match_name "Rave" = (some "Ravi", 75) :=
  ⟨rfl, by decide⟩

/-! ## Meeting-breakdown keyword fallback (claim C9) -/

/-- Claim C9 (confirmed): when the segmentation step yields zero
items, the keyword fallback emits one suggested item (assignee
`"unassigned"`, priority `"medium"`, details `"Based on meeting
content"`) for every `KEYWORD_TASKS` pattern that matches the body —
each matching pattern contributes, not first-match-only — and those
items become the new suggestion buffer. -/
theorem C9_keyword_fallback (buffer : List SuggestedItem) (desc : String)
    (hseg : segItems (parse_meeting_content desc) = []) :
    (keywordItems (parse_meeting_content desc) = [] →
      handle_meeting_breakdown buffer desc = (buffer, MeetingOutcome.noActionable)) ∧
    (keywordItems (parse_meeting_content desc) ≠ [] →
      (handle_meeting_breakdown buffer desc).1 =
        keywordItems (parse_meeting_content desc)) ∧
    (∀ pt ∈ KEYWORD_TASKS, reTest [Atom.alts pt.1 false] (parse_meeting_content desc) = true →
      mkKeywordItem pt.2 ∈ (handle_meeting_breakdown buffer desc).1) := by
  have hitems : meeting_actionable_items (parse_meeting_content desc) =
      keywordItems (parse_meeting_content desc) := by
    unfold meeting_actionable_items
    rw [hseg]
    rfl
  have hrun : handle_meeting_breakdown buffer desc =
      (if (keywordItems (parse_meeting_content desc)).isEmpty
        then (buffer, MeetingOutcome.noActionable)
        else (keywordItems (parse_meeting_content desc),
          MeetingOutcome.suggested (keywordItems (parse_meeting_content desc)))) := by
    unfold handle_meeting_breakdown
    dsimp only
    rw [hitems]
  refine ⟨?_, ?_, ?_⟩
  · intro hk
    rw [hrun, if_pos (by rw [hk]; rfl)]
  · intro hk
    rw [hrun, if_neg (by simpa using hk)]
  · intro pt hpt hmatch
    have hmem : mkKeywordItem pt.2 ∈ keywordItems (parse_meeting_content desc) := by
      unfold keywordItems
      exact List.mem_filterMap.mpr ⟨pt, hpt, by simp [hmatch]⟩
    have hk : keywordItems (parse_meeting_content desc) ≠ [] := by
      intro h
      rw [h] at hmem
      simp at hmem
    rw [hrun, if_neg (by simpa using hk)]
    exact hmem

/-- Witness for C9: a body with no list markers containing the word
`"documentation"` — the buffer receives the keyword-derived suggestion
titled `"Update documentation"`. -/
theorem C9_keyword_fallback_witness :
    (keywordItems (parse_meeting_content
        "The team agreed the documentation needs work") = [] →
      handle_meeting_breakdown [] "The team agreed the documentation needs work" =
        ([], MeetingOutcome.noActionable)) ∧
    (keywordItems (parse_meeting_content
        "The team agreed the documentation needs work") ≠ [] →
      (handle_meeting_breakdown [] "The team agreed the documentation needs work").1 =
        keywordItems (parse_meeting_content "The team agreed the documentation needs work")) ∧
    (∀ pt ∈ KEYWORD_TASKS, reTest [Atom.alts pt.1 false]
        (parse_meeting_content "The team agreed the documentation needs work") = true →
      mkKeywordItem pt.2 ∈
        (handle_meeting_breakdown [] "The team agreed the documentation needs work").1) ∧
    mkKeywordItem "Update documentation" ∈
      (handle_meeting_breakdown [] "The team agreed the documentation needs work").1 := by
  have h := C9_keyword_fallback [] "The team agreed the documentation needs work" (by decide)
  exact ⟨h.1, h.2.1, h.2.2,
    h.2.2 (["documentation", "docs"], "Update documentation") (by decide) (by decide)⟩

/-! ## Failed extraction leaves the buffer live (claim C10) -/

/-- Claim C10 (confirmed): when meeting breakdown extracts zero
actionable items (segmentation and keyword fallback both empty), the
no-actionable-items outcome leaves the existing suggestion buffer
unchanged, a subsequent selection command behaves exactly as if the
failed breakdown had not happened, and in general the buffer is
replaced only by a successful (non-empty) extraction. -/
theorem C10_failed_breakdown_preserves_buffer (tm : TaskManager)
    (buffer : List SuggestedItem) (desc sel now dd7 : String)
    (h : meeting_actionable_items (parse_meeting_content desc) = []) :
    handle_meeting_breakdown buffer desc = (buffer, MeetingOutcome.noActionable) ∧
    create_suggested_tasks_tool tm (handle_meeting_breakdown buffer desc).1 sel now dd7 =
      create_suggested_tasks_tool tm buffer sel now dd7 ∧
    (∀ (b : List SuggestedItem) (d : String),
      (handle_meeting_breakdown b d).1 = b ∨
      ((handle_meeting_breakdown b d).1 =
          meeting_actionable_items (parse_meeting_content d) ∧
        meeting_actionable_items (parse_meeting_content d) ≠ [])) := by
  have hmb : handle_meeting_breakdown buffer desc = (buffer, MeetingOutcome.noActionable) := by
    unfold handle_meeting_breakdown
    dsimp only
    rw [h]
    rfl
  refine ⟨hmb, by rw [hmb], ?_⟩
  intro b d
  unfold handle_meeting_breakdown
  dsimp only
  rcases hC : meeting_actionable_items (parse_meeting_content d) with _ | ⟨x, xs⟩
  · exact Or.inl rfl
  · exact Or.inr ⟨rfl, by simp⟩

/-- Witness for C10: a body that matches no list marker and no keyword
pattern; an earlier suggestion stays live and selecting `"1"` still
creates it. -/
theorem C10_failed_breakdown_preserves_buffer_witness :
    handle_meeting_breakdown [mkKeywordItem "Prepare demo presentation"]
        "alpha beta gamma" =
      ([mkKeywordItem "Prepare demo presentation"], MeetingOutcome.noActionable) ∧
    create_suggested_tasks_tool initial_task_manager
        (handle_meeting_breakdown [mkKeywordItem "Prepare demo presentation"]
          "alpha beta gamma").1 "1" "2024-02-01" "2024-02-08" =
      create_suggested_tasks_tool initial_task_manager
        [mkKeywordItem "Prepare demo presentation"] "1" "2024-02-01" "2024-02-08" ∧
    (∀ (b : List SuggestedItem) (d : String),
      (handle_meeting_breakdown b d).1 = b ∨
      ((handle_meeting_breakdown b d).1 =
          meeting_actionable_items (parse_meeting_content d) ∧
        meeting_actionable_items (parse_meeting_content d) ≠ [])) :=
  C10_failed_breakdown_preserves_buffer initial_task_manager
    [mkKeywordItem "Prepare demo presentation"] "alpha beta gamma" "1"
    "2024-02-01" "2024-02-08" (by decide)

/-! ## Selection parsing (claim C7) -/

/-- Claim C7 (confirmed): `parse_task_selection` maps the cancel words
to the empty (cancel) selection and the all words to every index; any
other input collects comma-separated 1-based numbers and one-dash
inclusive ranges, drops unparseable tokens, converts to 0-based,
deduplicates, drops indices outside `[0, count)` (the result is the
set of surviving indices, in increasing order), and an empty result
from such an input is the distinct invalid outcome `none` — never the
cancel value `some []`.  The spec's five round-trip examples hold
(plus a dropped-token example). -/
theorem C7_parse_selection_spec (s : String) (count : Nat)
    (h1 : pyStrip (pyLower s) ∉ (["none", "cancel", "no"] : List String))
    (h2 : pyStrip (pyLower s) ∉ (["all", "yes", "create all"] : List String)) :
    (∀ n, parse_task_selection "none" n = some [] ∧
       parse_task_selection "cancel" n = some [] ∧
       parse_task_selection "no" n = some []) ∧
    (∀ n, parse_task_selection "all" n = some (List.range n) ∧
       parse_task_selection "yes" n = some (List.range n) ∧
       parse_task_selection "create all" n = some (List.range n)) ∧
    parse_task_selection s count ≠ some [] ∧
    (∀ l, parse_task_selection s count = some l →
       l ≠ [] ∧ l.Pairwise (· < ·) ∧ ∀ i ∈ l, i < count) ∧
    parse_task_selection "1,3,5" 5 = some [0, 2, 4] ∧
    parse_task_selection "1-3" 5 = some [0, 1, 2] ∧
    parse_task_selection "all" 3 = some [0, 1, 2] ∧
    parse_task_selection "none" 3 = some [] ∧
    parse_task_selection "9" 3 = none ∧
    parse_task_selection "1,x,3" 5 = some [0, 2] := by
  simp only [List.mem_cons, List.mem_singleton, not_or] at h1 h2
  have hsel :
      parse_task_selection s count =
        (if (pySplit ','
              ⟨(pyStrip (pyLower s)).data.filter (fun c => c ≠ ' ')⟩ |> collectSelection |>
            (fun collected =>
              (List.range count).filter (fun i => collected.contains (Int.ofNat i)))).isEmpty
          then none
          else
            some
              (pySplit ','
                ⟨(pyStrip (pyLower s)).data.filter (fun c => c ≠ ' ')⟩ |> collectSelection |>
                (fun collected =>
                  (List.range count).filter (fun i => collected.contains (Int.ofNat i))))) := by
    unfold parse_task_selection
    rw [if_neg (by simp [h1.1, h1.2.1, h1.2.2]), if_neg (by simp [h2.1, h2.2.1, h2.2.2])]
  refine ⟨fun n => ⟨rfl, rfl, rfl⟩, fun n => ⟨rfl, rfl, rfl⟩, ?_, ?_,
    by decide, by decide, by decide, by decide, by decide, by decide⟩
  · rw [hsel]
    split
    · simp
    · rename_i hne
      intro hcontra
      apply hne
      rw [Option.some.inj hcontra]
      rfl
  · intro l hl
    rw [hsel] at hl
    split at hl
    · simp at hl
    · rename_i hne
      simp only [Option.some.injEq] at hl
      subst hl
      refine ⟨by simpa using hne, ?_, ?_⟩
      · exact (List.pairwise_lt_range count).sublist (List.filter_sublist _)
      · intro i hi
        exact List.mem_range.mp (List.mem_of_mem_filter hi)

/-- Witness for C7: the input `"7,9"` with three suggestions — neither
a cancel word nor an all word; both indices are out of range, so the
result is the invalid outcome. -/
theorem C7_parse_selection_spec_witness :
    (∀ n, parse_task_selection "none" n = some [] ∧
       parse_task_selection "cancel" n = some [] ∧
       parse_task_selection "no" n = some []) ∧
    (∀ n, parse_task_selection "all" n = some (List.range n) ∧
       parse_task_selection "yes" n = some (List.range n) ∧
       parse_task_selection "create all" n = some (List.range n)) ∧
    parse_task_selection "7,9" 3 ≠ some [] ∧
    (∀ l, parse_task_selection "7,9" 3 = some l →
       l ≠ [] ∧ l.Pairwise (· < ·) ∧ ∀ i ∈ l, i < 3) ∧
    parse_task_selection "1,3,5" 5 = some [0, 2, 4] ∧
    parse_task_selection "1-3" 5 = some [0, 1, 2] ∧
    parse_task_selection "all" 3 = some [0, 1, 2] ∧
    parse_task_selection "none" 3 = some [] ∧
    parse_task_selection "9" 3 = none ∧
    parse_task_selection "1,x,3" 5 = some [0, 2] :=
  C7_parse_selection_spec "7,9" 3 (by decide) (by decide)

/-! ## Single-task update with a fuzzy-matched assignee (claim C1) -/

/-- Claim C1 fails as stated on the code: for `"assign task 2 to
Rave"` the slot resolves to `"Ravi"` at confidence 75 — at/above the
threshold 70 and strictly below 100 — yet the executor applies the
update immediately (task 2's assignee becomes `"Ravi"` in the store)
and reports an applied-with-interpretation outcome, not a
confirmation request. -/
theorem C1_counterexample :
    (update_task_tool initial_task_manager "assign task 2 to Rave").1 ≠
      initial_task_manager ∧
    (get_task (update_task_tool initial_task_manager "assign task 2 to Rave").1 2).map
      Task.assignee = some "Ravi" ∧
    (update_task_tool initial_task_manager "assign task 2 to Rave").2 =
      UpdateOutcome.assigneeInterpreted 2 "Rave" "Ravi" 75 :=
  ⟨by decide, by decide, by decide⟩

/-- Claim C1 (amended): for a single-task update whose assignee slot
resolves by fuzzy match with confidence at or above the threshold but
strictly below 100, the executor applies the assignee change to the
Task Store immediately and returns a success outcome that merely notes
the interpretation and its confidence; it does not ask for
confirmation (unlike the create path), and only the unknown-name
branch leaves the store unchanged. -/
theorem C1_update_interpreted_applies (tm : TaskManager) (desc : String) (task_id : Nat)
    (raw name : String) (c : ℚ) (t : Task)
    (hp : parse_task_update_input desc = ParsedUpdate.single task_id UpdateType.assignee raw)
    (ht : get_task tm task_id = some t)
    (hraw : raw ≠ "unassigned")
    (hf : fuzzy_match_name raw = (some name, c))
    (h70 : c ≥ 70) (h100 : c < 100) :
    update_task_tool tm desc =
      ((update_task tm task_id [FieldAssign.assignee name]).1,
        UpdateOutcome.assigneeInterpreted task_id raw name c) := by
  unfold update_task_tool
  rw [hp]
  dsimp only
  rw [ht]
  dsimp only
  rw [if_neg hraw, hf]
  dsimp only
  rw [if_pos h70, if_pos h100]

/-- Witness for C1 (amended): the counterexample input, end to end. -/
theorem C1_update_interpreted_applies_witness :
    update_task_tool initial_task_manager "assign task 2 to Rave" =
      ((update_task initial_task_manager 2 [FieldAssign.assignee "Ravi"]).1,
        UpdateOutcome.assigneeInterpreted 2 "Rave" "Ravi" 75) :=
  C1_update_interpreted_applies initial_task_manager "assign task 2 to Rave" 2 "Rave" "Ravi" 75
    { id := 2, title := "Update login flow design", assignee := "Ankita",
      status := "pending", priority := "medium",
      created_at := "2024-01-16", due_date := "2024-01-25" }
    (by decide) (by decide) (by decide) (by decide) (by decide) (by decide)

/-! ## Create executor guard (claim C5) -/

/-- Claim C5 (confirmed): on a non-meeting input the create executor
mutates the store only when every validation passes.  If the parsed
title strips to empty, or the assignee's fuzzy match is a confirmation
case (confidence in `[70,100)`) or an unknown name, the store is
returned unchanged; a task is created exactly when the title is
non-empty and the assignee is `"unassigned"` or resolves with full
confidence 100. -/
theorem C5_create_guard (tm : TaskManager) (buffer : List SuggestedItem)
    (desc now dd7 : String) (hm : is_meeting_content desc = false) :
    ((∀ u, (create_task_tool tm buffer desc now dd7).2.2 ≠ CreateOutcome.created u) →
        (create_task_tool tm buffer desc now dd7).1 = tm) ∧
    (∀ u, (create_task_tool tm buffer desc now dd7).2.2 = CreateOutcome.created u →
        pyStrip (parse_task_creation_input desc dd7).title ≠ "" ∧
        ((parse_task_creation_input desc dd7).assignee = "unassigned" ∧
            u.assignee = "unassigned" ∨
          fuzzy_match_name (parse_task_creation_input desc dd7).assignee =
            (some u.assignee, 100))) ∧
    (pyStrip (parse_task_creation_input desc dd7).title ≠ "" →
      (parse_task_creation_input desc dd7).assignee = "unassigned" →
      ∃ u, (create_task_tool tm buffer desc now dd7).2.2 = CreateOutcome.created u) ∧
    (∀ m, pyStrip (parse_task_creation_input desc dd7).title ≠ "" →
      (parse_task_creation_input desc dd7).assignee ≠ "unassigned" →
      fuzzy_match_name (parse_task_creation_input desc dd7).assignee = (some m, 100) →
      ∃ u, (create_task_tool tm buffer desc now dd7).2.2 = CreateOutcome.created u ∧
        u.assignee = m) := by
  have hcond : ¬ (is_meeting_content desc = true) := by simp [hm]
  unfold create_task_tool
  rw [if_neg hcond]
  dsimp only
  set p := parse_task_creation_input desc dd7 with hp
  by_cases h1 : pyStrip p.title = ""
  · rw [if_pos h1]
    refine ⟨fun _ => rfl, ?_, ?_, ?_⟩
    · intro u hu; exact absurd hu (by simp)
    · intro ht; exact absurd h1 ht
    · intro m ht; exact absurd h1 ht
  · rw [if_neg h1]
    by_cases h2 : p.assignee = "unassigned"
    · have h2' : ¬ (p.assignee ≠ "unassigned") := by simp [h2]
      rw [if_neg h2']
      refine ⟨?_, ?_, ?_, ?_⟩
      · intro hAll; exact (hAll _ rfl).elim
      · intro u hu
        simp only [CreateOutcome.created.injEq] at hu
        subst hu
        exact ⟨h1, Or.inl ⟨h2, rfl⟩⟩
      · intro _ _; exact ⟨_, rfl⟩
      · intro m _ hne; exact absurd h2 hne
    · rw [if_pos h2]
      rcases hfm : fuzzy_match_name p.assignee with ⟨om, c⟩
      cases om with
      | none =>
        refine ⟨fun _ => rfl, ?_, ?_, ?_⟩
        · intro u hu; exact absurd hu (by simp)
        · intro _ ha; exact absurd ha h2
        · intro m _ _ hf
          simp at hf
      | some mn =>
        dsimp only
        by_cases h70 : c ≥ 70
        · rw [if_pos h70]
          by_cases h100 : c < 100
          · rw [if_pos h100]
            refine ⟨fun _ => rfl, ?_, ?_, ?_⟩
            · intro u hu; exact absurd hu (by simp)
            · intro _ ha; exact absurd ha h2
            · intro m _ _ hf
              simp only [Prod.mk.injEq, Option.some.injEq] at hf
              rw [hf.2] at h100
              exact absurd h100 (by norm_num)
          · rw [if_neg h100]
            have hc100 : c = 100 := by
              have hle := fuzzy_match_name_snd_le_100 p.assignee FUZZY_MATCH_THRESHOLD
              rw [hfm] at hle
              exact le_antisymm hle (le_of_not_lt h100)
            refine ⟨?_, ?_, ?_, ?_⟩
            · intro hAll; exact (hAll _ rfl).elim
            · intro u hu
              simp only [CreateOutcome.created.injEq] at hu
              subst hu
              refine ⟨h1, Or.inr ?_⟩
              rw [hc100]
              rfl
            · intro _ ha; exact absurd ha h2
            · intro m _ _ hf
              simp only [Prod.mk.injEq, Option.some.injEq] at hf
              exact ⟨_, rfl, hf.1⟩
        · rw [if_neg h70]
          refine ⟨fun _ => rfl, ?_, ?_, ?_⟩
          · intro u hu; exact absurd hu (by simp)
          · intro _ ha; exact absurd ha h2
          · intro m _ _ hf
            simp only [Prod.mk.injEq, Option.some.injEq] at hf
            rw [hf.2] at h70
            exact absurd (by norm_num : (100 : ℚ) ≥ 70) h70

/-- Witness for C5: the spec's create example — the assignee resolves
to `"Ravi"` at confidence 75, a confirmation case, so no task is
created and the store is unchanged. -/
theorem C5_create_guard_witness :
    ((∀ u, (create_task_tool initial_task_manager []
          "Create a new task called 'Fix login bug' for Rave with high priority due 2024-03-01"
          "2024-02-01" "2024-02-08").2.2 ≠ CreateOutcome.created u) →
        (create_task_tool initial_task_manager []
          "Create a new task called 'Fix login bug' for Rave with high priority due 2024-03-01"
          "2024-02-01" "2024-02-08").1 = initial_task_manager) ∧
    (∀ u, (create_task_tool initial_task_manager []
          "Create a new task called 'Fix login bug' for Rave with high priority due 2024-03-01"
          "2024-02-01" "2024-02-08").2.2 = CreateOutcome.created u →
        pyStrip (parse_task_creation_input
          "Create a new task called 'Fix login bug' for Rave with high priority due 2024-03-01"
          "2024-02-08").title ≠ "" ∧
        ((parse_task_creation_input
            "Create a new task called 'Fix login bug' for Rave with high priority due 2024-03-01"
            "2024-02-08").assignee = "unassigned" ∧ u.assignee = "unassigned" ∨
          fuzzy_match_name (parse_task_creation_input
            "Create a new task called 'Fix login bug' for Rave with high priority due 2024-03-01"
            "2024-02-08").assignee = (some u.assignee, 100))) ∧
    (pyStrip (parse_task_creation_input
        "Create a new task called 'Fix login bug' for Rave with high priority due 2024-03-01"
        "2024-02-08").title ≠ "" →
      (parse_task_creation_input
        "Create a new task called 'Fix login bug' for Rave with high priority due 2024-03-01"
        "2024-02-08").assignee = "unassigned" →
      ∃ u, (create_task_tool initial_task_manager []
          "Create a new task called 'Fix login bug' for Rave with high priority due 2024-03-01"
          "2024-02-01" "2024-02-08").2.2 = CreateOutcome.created u) ∧
    (∀ m, pyStrip (parse_task_creation_input
        "Create a new task called 'Fix login bug' for Rave with high priority due 2024-03-01"
        "2024-02-08").title ≠ "" →
      (parse_task_creation_input
        "Create a new task called 'Fix login bug' for Rave with high priority due 2024-03-01"
        "2024-02-08").assignee ≠ "unassigned" →
      fuzzy_match_name (parse_task_creation_input
        "Create a new task called 'Fix login bug' for Rave with high priority due 2024-03-01"
        "2024-02-08").assignee = (some m, 100) →
      ∃ u, (create_task_tool initial_task_manager []
          "Create a new task called 'Fix login bug' for Rave with high priority due 2024-03-01"
          "2024-02-01" "2024-02-08").2.2 = CreateOutcome.created u ∧
        u.assignee = m) :=
  C5_create_guard initial_task_manager []
    "Create a new task called 'Fix login bug' for Rave with high priority due 2024-03-01"
    "2024-02-01" "2024-02-08" (by decide)

/-- Witness for C4: on the mock store, add a task (id 4), delete id 4,
add again — the new id is 5 and 4 is never reused. -/
theorem C4_add_ids_monotone_witness :
    ((runOps initial_task_manager
        [StoreOp.add (Task.create_new "X"), StoreOp.delete 4,
         StoreOp.add (Task.create_new "Y")]).2).Pairwise (· < ·) ∧
    ((runOps initial_task_manager
        [StoreOp.add (Task.create_new "X"), StoreOp.delete 4,
         StoreOp.add (Task.create_new "Y")]).2).Nodup ∧
    4 ∉ (runOps (runOps initial_task_manager
          ([StoreOp.add (Task.create_new "X")] ++ [StoreOp.delete 4])).1
          [StoreOp.add (Task.create_new "Y")]).2 :=
  C4_add_ids_monotone initial_task_manager
    [StoreOp.add (Task.create_new "X"), StoreOp.delete 4, StoreOp.add (Task.create_new "Y")]
    [StoreOp.add (Task.create_new "X")] [StoreOp.add (Task.create_new "Y")] 4
    (by unfold StoreInv; decide) (by decide)

end Indexity
